import Mathlib

/-!
Verification development for the Flame-hash repository.

The core under specification is the chunked SHA3-256 hashing pipeline in
`src/services/hashService.ts` (`calculateSHA3_256`, `formatBytes`), the
summarizer wrapper in `src/services/geminiService.ts`
(`analyzeFileMetadata`), and the per-file workflow in `src/App.tsx`
(`processFile`, `clearAll`).

Files are modelled as lists of byte values (`List Nat`, each element
`< 256`); JavaScript numbers appearing in the code are modelled with exact
arithmetic over `Nat`/`Int` (division by zero yielding `Infinity`, and
`Math.round`/`Math.min` clamping, are translated explicitly where they
occur).
-/

namespace FlameHash

/-! ### SHA3-256 (Keccak) primitive

The repository delegates hashing to the external `js-sha3` package, which
is not part of the repository sources.  The functions in this section are
modelled from the spec: the spec fixes the primitive to be SHA3-256 with
lowercase hexadecimal output ("Digest: fixed-length hexadecimal output of
the SHA3-256 hash function"), so we embed the FIPS-202 SHA3-256 function
itself: Keccak-f[1600] with rate 136 bytes, domain padding byte `0x06`,
and a 32-byte digest. -/

/-- `2^64`, the lane modulus. -/
def w64 : Nat := 2 ^ 64

/-- Rotate a 64-bit lane left by `n` bits (`0 ≤ n < 64`). -/
def rotl64 (a n : Nat) : Nat :=
  ((a <<< n) ||| (a >>> (64 - n))) % w64

/-- One step of the degree-8 LFSR of FIPS-202 (feedback mask `0x71`)
that generates the ι round-constant bit stream `rc(t)`. -/
def lfsrStep (r : Nat) : Nat :=
  if r &&& 0x80 ≠ 0 then ((r <<< 1) ^^^ 0x71) &&& 0xFF else (r <<< 1) &&& 0xFF

/-- One ι round constant from seven successive LFSR output bits: bit
`rc(7i+j)` lands at lane position `2^j - 1`; returns the constant and the
advanced LFSR state. -/
def rcRound (r : Nat) : Nat × Nat :=
  (List.range 7).foldl
    (fun p j => (p.1 ||| ((p.2 &&& 1) <<< (2 ^ j - 1)), lfsrStep p.2))
    (0, r)

/-- The round constants of `n` successive rounds from LFSR state `r`. -/
def rcList : Nat → Nat → List Nat
  | 0, _ => []
  | n + 1, r => (rcRound r).1 :: rcList n (rcRound r).2

/-- The 24 Keccak round constants, generated from the initial LFSR
state 1. -/
def keccakRC : List Nat := rcList 24 1

/-- For each target lane index `j = y + 5·((2x+3y) mod 5)` of the combined
ρ-π step, the pair (source index `x + 5y`, rotation offset `r[x,y]`). -/
def rhoPiTable : List (Nat × Nat) :=
  [(0, 0), (6, 44), (12, 43), (18, 21), (24, 14),
   (3, 28), (9, 20), (10, 3), (16, 45), (22, 61),
   (1, 1), (7, 6), (13, 25), (19, 8), (20, 18),
   (4, 27), (5, 36), (11, 10), (17, 15), (23, 56),
   (2, 62), (8, 55), (14, 39), (15, 41), (21, 2)]

/-- θ step: xor into every lane the parity of its two neighbouring columns. -/
def theta (s : List Nat) : List Nat :=
  let cs := (List.range 5).map fun x =>
    (s.getD x 0) ^^^ (s.getD (x + 5) 0) ^^^ (s.getD (x + 10) 0) ^^^
      (s.getD (x + 15) 0) ^^^ (s.getD (x + 20) 0)
  (List.range 25).map fun j =>
    let x := j % 5
    (s.getD j 0) ^^^ (cs.getD ((x + 4) % 5) 0) ^^^ rotl64 (cs.getD ((x + 1) % 5) 0) 1

/-- Combined ρ (lane rotations) and π (lane permutation) steps. -/
def rhoPi (s : List Nat) : List Nat :=
  (List.range 25).map fun j =>
    let p := rhoPiTable.getD j (0, 0)
    rotl64 (s.getD p.1 0) p.2

/-- χ step: nonlinear mix along each row. -/
def chi (s : List Nat) : List Nat :=
  (List.range 25).map fun j =>
    let x := j % 5
    let row := j - x
    (s.getD j 0) ^^^
      (((s.getD (row + (x + 1) % 5) 0) ^^^ (w64 - 1)) &&& (s.getD (row + (x + 2) % 5) 0))

/-- ι step: xor the round constant into lane (0,0). -/
def iota (s : List Nat) (rc : Nat) : List Nat :=
  s.set 0 ((s.getD 0 0) ^^^ rc)

/-- One Keccak round. -/
def keccakRound (s : List Nat) (rc : Nat) : List Nat :=
  iota (chi (rhoPi (theta s))) rc

/-- The Keccak-f[1600] permutation: 24 rounds. -/
def keccakF (s : List Nat) : List Nat :=
  keccakRC.foldl keccakRound s

/-- Interpret up to eight bytes as a little-endian 64-bit lane. -/
def bytesToLane (bs : List Nat) : Nat :=
  bs.foldr (fun b acc => acc * 256 + b) 0

/-- Xor a 136-byte rate block into the first 17 lanes of the state. -/
def xorBlock (s block : List Nat) : List Nat :=
  (List.range 25).map fun j =>
    if j < 17 then (s.getD j 0) ^^^ bytesToLane ((block.drop (8 * j)).take 8)
    else s.getD j 0

/-- SHA3 multi-rate padding for rate 136: append `0x06`, zero-fill, and
set the top bit of the final byte of the block. -/
def sha3pad (msg : List Nat) : List Nat :=
  let padlen := 136 - msg.length % 136
  if padlen = 1 then msg ++ [0x86]
  else msg ++ [0x06] ++ List.replicate (padlen - 2) 0 ++ [0x80]

/-- Absorb a padded message into the sponge, one 136-byte block at a time;
`n` is the number of rate blocks (the padded message has exactly
`length / 136` of them, its length being a positive multiple of 136). -/
def absorbBlocks : Nat → List Nat → List Nat → List Nat
  | 0, s, _ => s
  | n + 1, s, bs => absorbBlocks n (keccakF (xorBlock s (bs.take 136))) (bs.drop 136)

/-- Serialize a 64-bit lane to eight little-endian bytes. -/
def laneToBytes (v : Nat) : List Nat :=
  (List.range 8).map fun i => (v >>> (8 * i)) % 256

/-- The 32 digest bytes of SHA3-256 on a byte string. -/
def sha3_256_bytes (msg : List Nat) : List Nat :=
  let padded := sha3pad msg
  let s := absorbBlocks (padded.length / 136) (List.replicate 25 0) padded
  ((List.range 4).map fun l => laneToBytes (s.getD l 0)).flatten

/-- Lowercase hexadecimal digit for a value below 16. -/
def hexChar (n : Nat) : Char :=
  if n < 10 then Char.ofNat (48 + n) else Char.ofNat (87 + n)

/-- Two lowercase hex digits for one byte. -/
def byteToHex (b : Nat) : String :=
  String.mk [hexChar (b / 16), hexChar (b % 16)]

/-- SHA3-256 digest rendered as 64 lowercase hexadecimal characters. -/
def sha3_256_hex (msg : List Nat) : String :=
  String.join ((sha3_256_bytes msg).map byteToHex)

/-! ### The incremental hasher of `js-sha3`

Modelled from the spec: the repository calls `sha3_256.create()`,
`hasher.update(chunk)` and `hasher.hex()` of the external `js-sha3`
package, whose sources are not in the repository.  The spec describes the
accumulator as "mutable incremental state of a SHA3-256 computation;
accepts successive byte ranges in order; finalizes exactly once into a
fixed-length digest", so the state is modelled extensionally as the byte
ranges absorbed so far: `update` appends a range, and finalization
(`hex`) returns the SHA3-256 digest of everything absorbed, in lowercase
hexadecimal. -/

/-- `sha3_256.create()`: fresh accumulator, nothing absorbed yet. -/
def sha3_256_create : List Nat := []

/-- `hasher.update(chunk)`: absorb one more byte range. -/
def hasherUpdate (st chunk : List Nat) : List Nat := st ++ chunk

/-- `hasher.hex()`: finalize into the lowercase hex digest. -/
def hasherHex (st : List Nat) : String := sha3_256_hex st

/-! ### `calculateSHA3_256` (src/services/hashService.ts, lines 7-53)

The file is a list of byte values; `file.slice(offset, offset + chunkSize)`
followed by `readAsArrayBuffer` is `(bytes.drop offset).take chunkSize`.
The `reader.onload` / `setTimeout(readNextChunk, 0)` recursion is the
recursion of `hashLoop`; one call of `hashLoop` is one `onload` firing.

`readOk idx` tells whether the `idx`-th read succeeds; when it does not,
`reader.onerror` fires and the promise is rejected with
`Error("Error reading file.")`.  `hasCb` records whether an `onProgress`
callback was supplied (`if (onProgress) onProgress(progress)`).

The loop returns the reported progress values, the successive values of
the `offset` cursor after each iteration, and the accumulator.  `fuel` is
only a structural-recursion budget so that the definition reduces inside
the kernel; `calculateSHA3_256` passes `bytes.length + 1`, which is proved
sufficient (`hashLoop` never reaches `0` there, see `hashLoop_ok_allOk`
and `hashLoop_read_error`). -/

/-- `const chunkSize = 1024 * 1024` (1 MiB). -/
def chunkSize : Nat := 1024 * 1024

/-- Line 37: `Math.min(100, Math.round((offset / file.size) * 100))`.
JavaScript numeric evaluation is modelled over exact rationals:
`Math.round` on a non-negative value is round-half-up, i.e.
`⌊(200·offset + size) / (2·size)⌋`; for `size = 0` the quotient is
`Infinity` and `Math.min(100, Infinity) = 100`. -/
def progressOf (size offsetV : Nat) : Nat :=
  if size = 0 then 100
  else min 100 ((200 * offsetV + size) / (2 * size))

/-- The `readNextChunk` / `onload` recursion of `calculateSHA3_256`.
Returns `(progress events, offset trace, accumulator)`. -/
def hashLoop (readOk : Nat → Bool) (hasCb : Bool) (bytes : List Nat) :
    Nat → Nat → Nat → List Nat → List Nat → List Nat →
      Except String (List Nat × List Nat × List Nat)
  | 0, _, _, _, _, _ => Except.error "out of fuel"
  | fuel + 1, idx, offsetV, st, events, offs =>
    if readOk idx then
      let chunk := (bytes.drop offsetV).take chunkSize
      let st2 := hasherUpdate st chunk
      let offset2 := offsetV + chunkSize
      let progress := progressOf bytes.length offset2
      let events2 := if hasCb then events ++ [progress] else events
      let offs2 := offs ++ [offset2]
      if offset2 < bytes.length then
        hashLoop readOk hasCb bytes fuel (idx + 1) offset2 st2 events2 offs2
      else Except.ok (events2, offs2, st2)
    else Except.error "Error reading file."

/-- Observable outcome of one successful run of `calculateSHA3_256`:
the values passed to `onProgress`, the successive values of the `offset`
cursor, and the resolved digest. -/
structure HashRun where
  events : List Nat
  offsets : List Nat
  digest : String
  deriving DecidableEq

deriving instance DecidableEq for Except

/-- `calculateSHA3_256(file, onProgress?)`: resolves with the digest or
rejects with the read-error message. -/
def calculateSHA3_256 (readOk : Nat → Bool) (hasCb : Bool) (bytes : List Nat) :
    Except String HashRun :=
  match hashLoop readOk hasCb bytes (bytes.length + 1) 0 0 sha3_256_create [] [] with
  | Except.ok (ev, offs, st) => Except.ok ⟨ev, offs, hasherHex st⟩
  | Except.error e => Except.error e

/-- Closed form of the offset trace: the loop entered at offset `off`
performs `(size - off - 1) / chunkSize + 1` iterations, the `k`-th of
which leaves the cursor at `off + (k+1)·chunkSize`. -/
def offsetTrace (size off : Nat) : List Nat :=
  (List.range ((size - off - 1) / chunkSize + 1)).map fun k => off + (k + 1) * chunkSize

/-! ### `formatBytes` (src/services/hashService.ts, lines 55-63) -/

/-- `parseFloat((num / den).toFixed(dm))` rendered back to a string by
string concatenation, modelled over exact rationals: round `num / den`
half-up to `dm` decimal places (the ECMAScript `toFixed` rule: of the two
nearest candidates pick the larger), then print with the trailing
fractional zeros removed and no trailing dot — which is what
`parseFloat` followed by number-to-string conversion produces. -/
def roundDecimalStr (num den dm : Nat) : String :=
  let m := (2 * num * 10 ^ dm + den) / (2 * den)
  let ip := m / 10 ^ dm
  let fp := m % 10 ^ dm
  let fpDigits := toString fp
  let frac := List.replicate (dm - fpDigits.length) '0' ++ fpDigits.data
  let fracTrim := (frac.reverse.dropWhile (fun ch => ch == '0')).reverse
  if fracTrim.isEmpty then toString ip
  else toString ip ++ "." ++ String.mk fracTrim

/-- `formatBytes(bytes, decimals)` (the source defaults `decimals` to 2).
`Math.floor(Math.log(bytes) / Math.log(1024))` is modelled over exact
reals as the floor base-1024 logarithm `Nat.log 1024`.
`sizes[i]` is JavaScript array indexing: out-of-range yields `undefined`,
which string concatenation renders as `"undefined"`, hence
`List.getD _ _ "undefined"`. -/
def formatBytes (bytes : Nat) (decimals : Int) : String :=
  if bytes = 0 then "0 Bytes"
  else
    let dm : Nat := if decimals < 0 then 0 else decimals.toNat
    let sizes := ["Bytes", "KB", "MB", "GB", "TB"]
    let i := Nat.log 1024 bytes
    roundDecimalStr bytes (1024 ^ i) dm ++ " " ++ sizes.getD i "undefined"

/-- The size formatter as worded by the spec (§4.3), for comparison with
the source definition: "selects the largest unit from
\x7bBytes, KB, MB, GB, TB\x7d such that the scaled value is ≥ 1 …, scales
n by 1024^index, rounds to `decimals` places, and renders as
`"<value> <unit>"`".  The largest unit of the five whose scaled value is
at least 1 has index `min (floor log_1024 n) 4`. -/
def specFormatBytes (bytes : Nat) (decimals : Int) : String :=
  if bytes = 0 then "0 Bytes"
  else
    let dm : Nat := if decimals < 0 then 0 else decimals.toNat
    let sizes := ["Bytes", "KB", "MB", "GB", "TB"]
    let i := min (Nat.log 1024 bytes) 4
    roundDecimalStr bytes (1024 ^ i) dm ++ " " ++ sizes.getD i "undefined"

/-! ### `analyzeFileMetadata` (src/services/geminiService.ts) -/

/-- Outcome of the external `ai.models.generateContent` call: either a
response whose `text` field is a string or absent (`undefined`), or a
thrown error (network, quota, malformed response, …). -/
inductive GenOutcome where
  | ok (text : Option String)
  | err
  deriving DecidableEq

/-- `analyzeFileMetadata`: the whole body is wrapped in `try`/`catch`; a
successful response returns `response.text || "AI Analysis unavailable."`
(an absent or empty `text` is falsy), and any failure is caught and
converted to the fixed fallback string.  The file metadata arguments only
feed the prompt and cannot influence which branch is taken, so they are
not parameters of the model. -/
def analyzeFileMetadata (outcome : GenOutcome) : String :=
  match outcome with
  | GenOutcome.ok (some t) => if t = "" then "AI Analysis unavailable." else t
  | GenOutcome.ok none => "AI Analysis unavailable."
  | GenOutcome.err => "Could not perform AI analysis at this time."

/-! ### `App.tsx`: `processFile` and `clearAll` -/

/-- The `FileResult` record of src/types (unnamed source file). -/
structure FileResult where
  id : String
  name : String
  size : Nat
  type : String
  lastModified : Nat
  hash : String
  timestamp : Nat
  aiAnalysis : Option String
  deriving DecidableEq

/-- The `HashStatus` enum of src/types. -/
inductive HashStatus where
  | IDLE
  | PROCESSING
  | COMPLETED
  | ERROR
  deriving DecidableEq

/-- The fields of the `File` object that `processFile` reads. -/
structure FileMeta where
  name : String
  size : Nat
  type : String
  lastModified : Nat
  deriving DecidableEq

/-- The React state of `App` that `processFile`/`clearAll` touch. -/
structure AppState where
  results : List FileResult
  status : HashStatus
  progress : Nat
  errorMsg : Option String
  deriving DecidableEq

/-- `processFile(file)`, src/App.tsx lines 27-69, as a state transformer
returning the state after the operation settles.  `hashResult` is the
settled promise of `calculateSHA3_256` (the intermediate
`setProgress(p)` calls from the progress callback are superseded by the
`finally \x7b setProgress(0) \x7d`, so only the final value appears);
`ai` is the outcome of the external generate-content call; `newId` models
`Math.random().toString(36).substr(2, 9)` and `now` models `Date.now()`.
On success the new record is prepended (`[newResult, ...prev]`); on
failure the `catch` branch sets the error message
(`err.message || "Failed to process file."`) and status only. -/
def processFile (file : FileMeta) (hashResult : Except String String)
    (ai : GenOutcome) (newId : String) (now : Nat) (s : AppState) : AppState :=
  let s1 : AppState := { s with errorMsg := none, status := HashStatus.PROCESSING, progress := 0 }
  match hashResult with
  | Except.ok hash =>
    let aiAnalysis := analyzeFileMetadata ai
    let newResult : FileResult :=
      { id := newId, name := file.name, size := file.size,
        type := if file.type = "" then "unknown" else file.type,
        lastModified := file.lastModified, hash := hash, timestamp := now,
        aiAnalysis := some aiAnalysis }
    { s1 with results := newResult :: s1.results,
              status := HashStatus.COMPLETED, progress := 0 }
  | Except.error e =>
    { s1 with errorMsg := some (if e = "" then "Failed to process file." else e),
              status := HashStatus.ERROR, progress := 0 }

/-- `clearAll`, src/App.tsx lines 100-104. -/
def clearAll (s : AppState) : AppState :=
  { s with results := [], status := HashStatus.IDLE, errorMsg := none }

/-! ### Helper lemmas: the progress formula -/

lemma chunkSize_pos : 0 < chunkSize := by decide

lemma progressOf_le_100 (size x : Nat) : progressOf size x ≤ 100 := by
  unfold progressOf
  split
  · exact le_refl 100
  · exact min_le_left _ _

lemma progressOf_mono (size : Nat) {x y : Nat} (h : x ≤ y) :
    progressOf size x ≤ progressOf size y := by
  unfold progressOf
  split
  · exact le_refl 100
  · exact min_le_min (le_refl 100) (Nat.div_le_div_right (by omega))

lemma progressOf_eq_100 {size x : Nat} (h : size ≤ x) : progressOf size x = 100 := by
  unfold progressOf
  split
  · rfl
  · rename_i hs
    have h2 : 100 ≤ (200 * x + size) / (2 * size) := by
      rw [Nat.le_div_iff_mul_le (by omega)]
      omega
    exact min_eq_left h2

/-! ### Helper lemmas: the offset trace -/

lemma offsetTrace_stop {size off : Nat} (h : ¬ off + chunkSize < size) :
    offsetTrace size off = [off + chunkSize] := by
  unfold offsetTrace
  have h1 : (size - off - 1) / chunkSize = 0 := by
    apply Nat.div_eq_of_lt
    have := chunkSize_pos
    omega
  have hr : List.range (0 + 1) = [0] := rfl
  rw [h1, hr, List.map_singleton, Nat.zero_add, Nat.one_mul]

lemma offsetTrace_step {size off : Nat} (h : off + chunkSize < size) :
    offsetTrace size off = (off + chunkSize) :: offsetTrace size (off + chunkSize) := by
  unfold offsetTrace
  have hc := chunkSize_pos
  have h2 : (size - off - 1) / chunkSize = (size - (off + chunkSize) - 1) / chunkSize + 1 := by
    rw [Nat.div_eq_sub_div hc (by omega)]
    have he : size - off - 1 - chunkSize = size - (off + chunkSize) - 1 := by omega
    rw [he]
  rw [h2, List.range_succ_eq_map, List.map_cons, List.map_map]
  have e1 : off + (0 + 1) * chunkSize = off + chunkSize := by ring
  have e2 : (fun k => off + (k + 1) * chunkSize) ∘ Nat.succ =
      fun k => off + chunkSize + (k + 1) * chunkSize := by
    funext k
    simp only [Function.comp_apply, Nat.succ_eq_add_one]
    ring
  rw [e1, e2]

lemma offsetTrace_length (size off : Nat) :
    (offsetTrace size off).length = (size - off - 1) / chunkSize + 1 := by
  unfold offsetTrace
  simp

lemma offsetTrace_getD {size off k : Nat} (h : k < (offsetTrace size off).length) :
    (offsetTrace size off).getD k 0 = off + (k + 1) * chunkSize := by
  rw [List.getD_eq_getElem _ _ h]
  unfold offsetTrace
  simp

lemma offsetTrace_getLast (size off : Nat) :
    (offsetTrace size off).getLast? =
      some (off + ((size - off - 1) / chunkSize + 1) * chunkSize) := by
  unfold offsetTrace
  rw [List.getLast?_map, List.range_succ, List.getLast?_concat]
  rfl

lemma offsetTrace_last_ge {size off m : Nat}
    (hm : (offsetTrace size off).getLast? = some m) : size ≤ m := by
  rw [offsetTrace_getLast] at hm
  have hm2 := Option.some.inj hm
  subst hm2
  have hc := chunkSize_pos
  have h3 := Nat.div_add_mod (size - off - 1) chunkSize
  have h4 : (size - off - 1) % chunkSize < chunkSize := Nat.mod_lt _ hc
  have h5 : ((size - off - 1) / chunkSize + 1) * chunkSize =
      chunkSize * ((size - off - 1) / chunkSize) + chunkSize := by ring
  rw [h5]
  omega

/-! ### The master lemma: the loop under all-successful reads -/

lemma hashLoop_ok_allOk (hasCb : Bool) (bytes : List Nat) :
    ∀ fuel off st ev offs idx,
      (bytes.length - off - 1) / chunkSize + 1 ≤ fuel →
      hashLoop (fun _ => true) hasCb bytes fuel idx off st ev offs =
        Except.ok
          (ev ++ (if hasCb then (offsetTrace bytes.length off).map (progressOf bytes.length)
                  else []),
           offs ++ offsetTrace bytes.length off,
           st ++ bytes.drop off) := by
  intro fuel
  induction fuel with
  | zero =>
    intro off st ev offs idx h
    exact absurd h (Nat.not_succ_le_zero _)
  | succ fuel ih =>
    intro off st ev offs idx h
    rw [hashLoop]
    simp only [if_true]
    by_cases h2 : off + chunkSize < bytes.length
    · have h3 : (bytes.length - off - 1) / chunkSize =
          (bytes.length - (off + chunkSize) - 1) / chunkSize + 1 := by
        rw [Nat.div_eq_sub_div chunkSize_pos (by omega)]
        have he : bytes.length - off - 1 - chunkSize =
            bytes.length - (off + chunkSize) - 1 := by omega
        rw [he]
      have hsplit : List.take chunkSize (List.drop off bytes) ++
          List.drop (off + chunkSize) bytes = List.drop off bytes := by
        rw [← List.drop_drop, List.take_append_drop]
      have hfuel : (bytes.length - (off + chunkSize) - 1) / chunkSize + 1 ≤ fuel := by
        rw [h3] at h
        exact Nat.succ_le_succ_iff.mp h
      rw [if_pos h2, ih (off + chunkSize) _ _ _ _ hfuel]
      rw [offsetTrace_step h2]
      rw [List.map_cons]
      have hev : (if hasCb = true then ev ++ [progressOf bytes.length (off + chunkSize)] else ev) ++
          (if hasCb = true then
            List.map (progressOf bytes.length) (offsetTrace bytes.length (off + chunkSize))
           else []) =
          ev ++ (if hasCb = true then
            progressOf bytes.length (off + chunkSize) ::
              List.map (progressOf bytes.length) (offsetTrace bytes.length (off + chunkSize))
           else []) := by
        cases hasCb <;> simp
      have hoffs : (offs ++ [off + chunkSize]) ++ offsetTrace bytes.length (off + chunkSize) =
          offs ++ ((off + chunkSize) :: offsetTrace bytes.length (off + chunkSize)) := by
        rw [List.append_assoc, List.singleton_append]
      have hst : hasherUpdate st (List.take chunkSize (List.drop off bytes)) ++
          List.drop (off + chunkSize) bytes = st ++ List.drop off bytes := by
        unfold hasherUpdate
        rw [List.append_assoc, hsplit]
      rw [hev, hoffs, hst]
    · rw [if_neg h2, offsetTrace_stop h2, List.map_singleton]
      have h4 : (bytes.drop off).length ≤ chunkSize := by
        simp only [List.length_drop]
        omega
      have hev : (if hasCb = true then
            ev ++ [progressOf bytes.length (off + chunkSize)] else ev) =
          ev ++ (if hasCb = true then [progressOf bytes.length (off + chunkSize)] else []) := by
        cases hasCb <;> simp
      have hst : hasherUpdate st (List.take chunkSize (List.drop off bytes)) =
          st ++ List.drop off bytes := by
        unfold hasherUpdate
        rw [List.take_of_length_le h4]
      rw [hev, hst]
/-- `calculateSHA3_256` with every read succeeding: it resolves, the
progress events are the progress formula along the offset trace (or
nothing when no callback is given), and the digest is the SHA3-256 of the
whole content. -/
lemma calculateSHA3_256_allOk (hasCb : Bool) (bytes : List Nat) :
    calculateSHA3_256 (fun _ => true) hasCb bytes =
      Except.ok
        ⟨if hasCb then (offsetTrace bytes.length 0).map (progressOf bytes.length) else [],
         offsetTrace bytes.length 0, sha3_256_hex bytes⟩ := by
  unfold calculateSHA3_256
  rw [hashLoop_ok_allOk]
  · simp [sha3_256_create, hasherHex]
  · exact Nat.succ_le_succ (le_trans (Nat.div_le_self _ _) (by omega))

/-! ### The loop when one read fails -/

lemma hashLoop_read_error (hasCb : Bool) (bytes : List Nat) (k : Nat) :
    ∀ fuel idx off st ev offs, off = idx * chunkSize → idx ≤ k → k + 1 - idx ≤ fuel →
      (k = idx ∨ k * chunkSize < bytes.length) →
      hashLoop (fun i => i != k) hasCb bytes fuel idx off st ev offs =
        Except.error "Error reading file." := by
  intro fuel
  induction fuel with
  | zero =>
    intro idx off st ev offs hoff h1 h2 h3
    exact absurd h2 (by omega)
  | succ fuel ih =>
    intro idx off st ev offs hoff h1 h2 h3
    rw [hashLoop]
    by_cases hik : idx = k
    · subst hik
      have hb : (idx != idx) = true ↔ False := by simp
      rw [if_neg (hb.mp)]
    · have hklen : k * chunkSize < bytes.length := by
        cases h3 with
        | inl heq => exact absurd heq.symm hik
        | inr hlt => exact hlt
      have hb : (idx != k) = true := by simp [hik]
      rw [if_pos hb]
      have hlt2 : off + chunkSize < bytes.length := by
        have hle : (idx + 1) * chunkSize ≤ k * chunkSize :=
          Nat.mul_le_mul_right chunkSize (by omega)
        have : off + chunkSize = (idx + 1) * chunkSize := by rw [hoff]; ring
        omega
      rw [if_pos hlt2]
      exact ih (idx + 1) (off + chunkSize) _ _ _ (by rw [hoff]; ring) (by omega) (by omega)
        (Or.inr hklen)

/-- `calculateSHA3_256` when the `k`-th read fails (and that read is
reached): the promise is rejected with the read-error message, and no
digest is produced. -/
lemma calculateSHA3_256_read_error (hasCb : Bool) (bytes : List Nat) (k : Nat)
    (hk : k = 0 ∨ k * chunkSize < bytes.length) :
    calculateSHA3_256 (fun i => i != k) hasCb bytes = Except.error "Error reading file." := by
  unfold calculateSHA3_256
  have hklen : k ≤ bytes.length := by
    cases hk with
    | inl h0 => omega
    | inr hlt =>
      have : k ≤ k * chunkSize := Nat.le_mul_of_pos_right k chunkSize_pos
      omega
  rw [hashLoop_read_error hasCb bytes k (bytes.length + 1) 0 0 sha3_256_create [] []
    (by ring) (Nat.zero_le k) (by omega) hk]

/-! ### Feeding the accumulator chunk by chunk -/

lemma foldl_hasherUpdate (chunks : List (List Nat)) :
    ∀ st, chunks.foldl hasherUpdate st = st ++ chunks.flatten := by
  induction chunks with
  | nil =>
    intro st
    simp
  | cons c cs ih =>
    intro st
    rw [List.foldl_cons, ih (hasherUpdate st c)]
    unfold hasherUpdate
    simp [List.append_assoc]

/-! ### The digest does not depend on the progress callback -/

lemma hashLoop_events_irrelevant (readOk : Nat → Bool) (bytes : List Nat) (cb1 cb2 : Bool) :
    ∀ fuel idx off st ev1 ev2 offs,
      (hashLoop readOk cb1 bytes fuel idx off st ev1 offs).map (fun t => t.2) =
        (hashLoop readOk cb2 bytes fuel idx off st ev2 offs).map (fun t => t.2) := by
  intro fuel
  induction fuel with
  | zero =>
    intro idx off st ev1 ev2 offs
    rfl
  | succ fuel ih =>
    intro idx off st ev1 ev2 offs
    rw [hashLoop]
    conv_rhs => rw [hashLoop]
    by_cases hr : readOk idx
    · rw [if_pos hr, if_pos hr]
      by_cases h2 : off + chunkSize < bytes.length
      · rw [if_pos h2, if_pos h2]
        exact ih (idx + 1) (off + chunkSize) _ _ _ _
      · rw [if_neg h2, if_neg h2]
        rfl
    · rw [if_neg hr, if_neg hr]

lemma calculateSHA3_256_digest_irrelevant (readOk : Nat → Bool) (bytes : List Nat)
    (cb1 cb2 : Bool) :
    (calculateSHA3_256 readOk cb1 bytes).map HashRun.digest =
      (calculateSHA3_256 readOk cb2 bytes).map HashRun.digest := by
  unfold calculateSHA3_256
  have h := hashLoop_events_irrelevant readOk bytes cb1 cb2 (bytes.length + 1) 0 0
    sha3_256_create [] [] []
  cases e1 : hashLoop readOk cb1 bytes (bytes.length + 1) 0 0 sha3_256_create [] [] with
  | ok t1 =>
    cases e2 : hashLoop readOk cb2 bytes (bytes.length + 1) 0 0 sha3_256_create [] [] with
    | ok t2 =>
      rw [e1, e2] at h
      obtain ⟨ev1, offs1, st1⟩ := t1
      obtain ⟨ev2, offs2, st2⟩ := t2
      simp only [Except.map] at h
      have h2 := Except.ok.inj h
      simp only [Prod.mk.injEq] at h2
      simp [h2.2, Except.map]
    | error e =>
      rw [e1, e2] at h
      simp only [Except.map] at h
      exact absurd h (by simp)
  | error e1 =>
    cases e2 : hashLoop readOk cb2 bytes (bytes.length + 1) 0 0 sha3_256_create [] [] with
    | ok t2 =>
      rw [e1, e2] at h
      simp only [Except.map] at h
      exact absurd h (by simp)
    | error e2v =>
      rw [e1, e2] at h
      simp only [Except.map] at h
      have h2 := Except.error.inj h
      simp [h2]

/-! ### Helper lemmas: the size formatter -/

lemma formatBytes_eval {n : Nat} (d : Int) (i : Nat) (hn : ¬ n = 0)
    (hi : Nat.log 1024 n = i) :
    formatBytes n d =
      roundDecimalStr n (1024 ^ i) (if d < 0 then 0 else d.toNat) ++ " " ++
        ["Bytes", "KB", "MB", "GB", "TB"].getD i "undefined" := by
  unfold formatBytes
  rw [if_neg hn, hi]

lemma specFormatBytes_eval {n : Nat} (d : Int) (i : Nat) (hn : ¬ n = 0)
    (hi : min (Nat.log 1024 n) 4 = i) :
    specFormatBytes n d =
      roundDecimalStr n (1024 ^ i) (if d < 0 then 0 else d.toNat) ++ " " ++
        ["Bytes", "KB", "MB", "GB", "TB"].getD i "undefined" := by
  unfold specFormatBytes
  rw [if_neg hn, hi]

lemma formatBytes_eq_spec {n : Nat} (d : Int) (h0 : 0 < n) (h5 : n < 1024 ^ 5) :
    formatBytes n d = specFormatBytes n d := by
  have hlog : Nat.log 1024 n ≤ 4 := by
    have := Nat.log_lt_of_lt_pow (by omega : n ≠ 0) h5
    omega
  unfold formatBytes specFormatBytes
  rw [min_eq_left hlog]

lemma offsetTraceMap_getD {size k : Nat} (f : Nat → Nat)
    (h : k < ((offsetTrace size 0).map f).length) :
    ((offsetTrace size 0).map f).getD k 0 = f ((k + 1) * chunkSize) := by
  rw [List.getD_eq_getElem _ _ h, List.getElem_map]
  have h2 : k < (offsetTrace size 0).length := by simpa using h
  rw [← List.getD_eq_getElem _ 0 h2, offsetTrace_getD h2, Nat.zero_add]

/-! ## The claims -/

set_option maxRecDepth 100000

/-- Claim C1: for every byte sequence B and every partition of B into
N ≥ 1 contiguous chunks fed in order, the digest produced by the chunked
hashing pipeline (`calculateSHA3_256`, which updates one accumulator
chunk by chunk and finalizes once) equals the SHA3-256 digest of B hashed
in a single chunk. -/
theorem C1_chunked_digest_eq_single (bytes : List Nat) (chunks : List (List Nat))
    (hjoin : chunks.flatten = bytes) (hn : 1 ≤ chunks.length) :
    (calculateSHA3_256 (fun _ => true) true bytes).map HashRun.digest =
      Except.ok (hasherHex (chunks.foldl hasherUpdate sha3_256_create)) := by
  rw [calculateSHA3_256_allOk, foldl_hasherUpdate, hjoin]
  unfold sha3_256_create hasherHex
  rw [List.nil_append]
  rfl

/-- Witness for C1 at B = [1,2,3] partitioned as [[1],[2,3]]. -/
theorem C1_chunked_digest_eq_single_witness :
    ([[1], [2, 3]] : List (List Nat)).flatten = [1, 2, 3] ∧
    1 ≤ ([[1], [2, 3]] : List (List Nat)).length ∧
    (calculateSHA3_256 (fun _ => true) true [1, 2, 3]).map HashRun.digest =
      Except.ok (hasherHex ([[1], [2, 3]].foldl hasherUpdate sha3_256_create)) :=
  ⟨by decide, by decide,
   C1_chunked_digest_eq_single [1, 2, 3] [[1], [2, 3]] (by decide) (by decide)⟩

/-- Claim C2: for a zero-length file, `calculateSHA3_256` resolves with
the lowercase hex digest of the empty input,
`a7ffc6f8bf1ed76651c14756a061d662f580ff4de43b49fa82d80a4b80f8434a`, and
reports progress 100 (its only progress event is 100, emitted when the
offset cursor stands at 1048576 after the single trivial read). -/
theorem C2_empty_file_digest :
    calculateSHA3_256 (fun _ => true) true [] =
      Except.ok
        ⟨[100], [1048576],
         "a7ffc6f8bf1ed76651c14756a061d662f580ff4de43b49fa82d80a4b80f8434a"⟩ := by
  decide

/-- Claim C3: the sequence of values passed to `onProgress` consists of
integers in [0,100] (values are naturals, so only the upper bound is
stated), is monotonically non-decreasing, ends in exactly 100, and for an
empty file is exactly [100]. -/
theorem C3_progress_sequence (bytes : List Nat) (r : HashRun)
    (h : calculateSHA3_256 (fun _ => true) true bytes = Except.ok r) :
    (∀ e ∈ r.events, e ≤ 100) ∧
    List.Chain' (fun a b => a ≤ b) r.events ∧
    r.events.getLast? = some 100 ∧
    (bytes = [] → r.events = [100]) := by
  have hev : r.events = (offsetTrace bytes.length 0).map (progressOf bytes.length) := by
    rw [calculateSHA3_256_allOk] at h
    rw [← Except.ok.inj h]
    rfl
  refine ⟨?_, ?_, ?_, ?_⟩
  · intro e he
    rw [hev] at he
    obtain ⟨x, hx, hxe⟩ := List.mem_map.mp he
    rw [← hxe]
    exact progressOf_le_100 _ _
  · rw [hev, List.chain'_map]
    unfold offsetTrace
    rw [List.chain'_map]
    refine (List.chain'_range_succ _ _).mpr ?_
    intro m hm
    refine progressOf_mono _ ?_
    refine Nat.add_le_add_left ?_ 0
    exact Nat.mul_le_mul_right chunkSize (by omega)
  · rw [hev, List.getLast?_map, offsetTrace_getLast]
    exact congrArg some (progressOf_eq_100 (offsetTrace_last_ge (offsetTrace_getLast _ _)))
  · intro hb
    subst hb
    rw [hev]
    simp only [List.length_nil]
    rw [offsetTrace_stop (by omega), List.map_singleton,
      progressOf_eq_100 (Nat.zero_le _)]

/-- Witness for C3 at the empty file. -/
theorem C3_progress_sequence_witness :
    (calculateSHA3_256 (fun _ => true) true [] =
      Except.ok
        (⟨[100], [1048576],
          "a7ffc6f8bf1ed76651c14756a061d662f580ff4de43b49fa82d80a4b80f8434a"⟩ :
          HashRun)) ∧
    ((∀ e ∈ (HashRun.mk [100] [1048576]
        "a7ffc6f8bf1ed76651c14756a061d662f580ff4de43b49fa82d80a4b80f8434a").events,
        e ≤ 100) ∧
     List.Chain' (fun a b => a ≤ b) (HashRun.mk [100] [1048576]
        "a7ffc6f8bf1ed76651c14756a061d662f580ff4de43b49fa82d80a4b80f8434a").events ∧
     (HashRun.mk [100] [1048576]
        "a7ffc6f8bf1ed76651c14756a061d662f580ff4de43b49fa82d80a4b80f8434a").events.getLast? =
        some 100 ∧
     (([] : List Nat) = [] → (HashRun.mk [100] [1048576]
        "a7ffc6f8bf1ed76651c14756a061d662f580ff4de43b49fa82d80a4b80f8434a").events =
        [100])) := by
  have hh : calculateSHA3_256 (fun _ => true) true [] =
      Except.ok
        (⟨[100], [1048576],
          "a7ffc6f8bf1ed76651c14756a061d662f580ff4de43b49fa82d80a4b80f8434a"⟩ :
          HashRun) := by decide
  exact ⟨hh, C3_progress_sequence [] _ hh⟩

/-- Claim C4 as stated is false: the source computes the progress with
`Math.round` (round half up), not `Math.floor`.  For a 1677721-byte file
the first chunk boundary yields round(104857600/1677721) = 63, while
floor(104857600/1677721) = 62; the last conjunct checks that the two
formulas disagree there. -/
theorem C4_progress_floor_counterexample :
    (calculateSHA3_256 (fun _ => true) true (List.replicate 1677721 0)).map
        HashRun.events = Except.ok [63, 100] ∧
    min 100 ((1048576 * 100) / 1677721) = 62 := by
  constructor
  · rw [calculateSHA3_256_allOk]
    rw [List.length_replicate]
    decide
  · decide

/-- Claim C4 amended: after each chunk is consumed, the reported progress
equals `min 100 (round-half-up (offset / fileSize * 100))` where the
offset after the (k+1)-st chunk is (k+1)·1048576 and round-half-up of
a/b is ⌊(2a+b)/(2b)⌋. -/
theorem C4_progress_formula (bytes : List Nat) (r : HashRun) (k : Nat)
    (h : calculateSHA3_256 (fun _ => true) true bytes = Except.ok r)
    (hne : bytes ≠ []) (hk : k < r.events.length) :
    r.events.getD k 0 =
      min 100 ((200 * ((k + 1) * 1048576) + bytes.length) / (2 * bytes.length)) := by
  have hev : r.events = (offsetTrace bytes.length 0).map (progressOf bytes.length) := by
    rw [calculateSHA3_256_allOk] at h
    rw [← Except.ok.inj h]
    rfl
  rw [hev] at hk
  rw [hev, offsetTraceMap_getD _ hk]
  unfold progressOf
  rw [if_neg (by simpa using hne)]
  have hc : chunkSize = 1048576 := rfl
  rw [hc]

/-- Witness for C4 amended at a one-byte file, first chunk. -/
theorem C4_progress_formula_witness :
    (calculateSHA3_256 (fun _ => true) true [0] =
      Except.ok
        (⟨[100], [1048576],
          "5d53469f20fef4f8eab52b88044ede69c77a6a68a60728609fc4a65ff531e7d0"⟩ :
          HashRun)) ∧
    ([0] : List Nat) ≠ [] ∧
    0 < (HashRun.mk [100] [1048576]
        "5d53469f20fef4f8eab52b88044ede69c77a6a68a60728609fc4a65ff531e7d0").events.length ∧
    (HashRun.mk [100] [1048576]
        "5d53469f20fef4f8eab52b88044ede69c77a6a68a60728609fc4a65ff531e7d0").events.getD 0 0 =
      min 100 ((200 * ((0 + 1) * 1048576) + ([0] : List Nat).length) /
        (2 * ([0] : List Nat).length)) := by
  have hh : calculateSHA3_256 (fun _ => true) true [0] =
      Except.ok
        (⟨[100], [1048576],
          "5d53469f20fef4f8eab52b88044ede69c77a6a68a60728609fc4a65ff531e7d0"⟩ :
          HashRun) := by decide
  exact ⟨hh, by decide, by decide, C4_progress_formula [0] _ 0 hh (by decide) (by decide)⟩

/-- Claim C5 as stated is false: the loop advances the offset cursor by
the fixed chunk size 1048576 in every iteration, not by the number of
bytes actually read, so for a 1-byte file the offset after the final
(short, 1-byte) chunk is 1048576, not the file size 1. -/
theorem C5_offset_counterexample :
    (calculateSHA3_256 (fun _ => true) true [0]).map HashRun.offsets =
      Except.ok [1048576] ∧
    ([0] : List Nat).length = 1 ∧ (1048576 : Nat) ≠ 1 := by
  refine ⟨by decide, by decide, by decide⟩

/-- Claim C5 amended: in every iteration the offset cursor is advanced by
exactly `chunkSize = 1048576` (so after the k+1-st iteration it stands at
(k+1)·1048576), and after the final chunk the offset is at least the file
size (it equals the file size only when the size is a positive multiple
of the chunk size). -/
theorem C5_offset_advance (bytes : List Nat) (r : HashRun)
    (h : calculateSHA3_256 (fun _ => true) true bytes = Except.ok r) :
    (∀ k, k < r.offsets.length → r.offsets.getD k 0 = (k + 1) * 1048576) ∧
    (∀ n, r.offsets.getLast? = some n → bytes.length ≤ n) := by
  have hoffs : r.offsets = offsetTrace bytes.length 0 := by
    rw [calculateSHA3_256_allOk] at h
    rw [← Except.ok.inj h]
  constructor
  · intro k hk
    rw [hoffs] at hk
    rw [hoffs, offsetTrace_getD hk, Nat.zero_add]
    rfl
  · intro n hn
    rw [hoffs] at hn
    exact offsetTrace_last_ge hn

/-- Witness for C5 amended at the empty file. -/
theorem C5_offset_advance_witness :
    (calculateSHA3_256 (fun _ => true) true [] =
      Except.ok
        (⟨[100], [1048576],
          "a7ffc6f8bf1ed76651c14756a061d662f580ff4de43b49fa82d80a4b80f8434a"⟩ :
          HashRun)) ∧
    ((∀ k, k < (HashRun.mk [100] [1048576]
        "a7ffc6f8bf1ed76651c14756a061d662f580ff4de43b49fa82d80a4b80f8434a").offsets.length →
        (HashRun.mk [100] [1048576]
          "a7ffc6f8bf1ed76651c14756a061d662f580ff4de43b49fa82d80a4b80f8434a").offsets.getD
            k 0 = (k + 1) * 1048576) ∧
     (∀ n, (HashRun.mk [100] [1048576]
        "a7ffc6f8bf1ed76651c14756a061d662f580ff4de43b49fa82d80a4b80f8434a").offsets.getLast? =
          some n → ([] : List Nat).length ≤ n)) := by
  have hh : calculateSHA3_256 (fun _ => true) true [] =
      Except.ok
        (⟨[100], [1048576],
          "a7ffc6f8bf1ed76651c14756a061d662f580ff4de43b49fa82d80a4b80f8434a"⟩ :
          HashRun) := by decide
  exact ⟨hh, C5_offset_advance [] _ hh⟩

/-- Claim C6: any failure inside `analyzeFileMetadata` is caught inside
its own boundary: the call always returns a string (it is total), on
failure it returns the single fixed fallback string, and a summarizer
failure never prevents a Result record from being produced — the record
is still prepended to the history with the fallback string as its summary
field. -/
theorem C6_summarizer_fallback (file : FileMeta) (digest newId : String) (now : Nat)
    (s : AppState) :
    analyzeFileMetadata GenOutcome.err = "Could not perform AI analysis at this time." ∧
    (processFile file (Except.ok digest) GenOutcome.err newId now s).results.head?.map
        FileResult.aiAnalysis =
      some (some "Could not perform AI analysis at this time.") ∧
    (processFile file (Except.ok digest) GenOutcome.err newId now s).results.length =
      s.results.length + 1 := by
  refine ⟨rfl, ?_, ?_⟩ <;> simp [processFile, analyzeFileMetadata]

/-- Claim C8: an unreadable byte range (the k-th read failing, that read
being reached) rejects the whole operation with the read error — no
digest is produced, there is no retry — and `processFile` propagates it:
the state after the failed operation has the error recorded, status
ERROR, an unchanged history, and the operation-local progress reset to 0
so a subsequent attempt starts clean. -/
theorem C8_read_error_propagation (bytes : List Nat) (hasCb : Bool) (k : Nat)
    (hk : k = 0 ∨ k * 1048576 < bytes.length)
    (file : FileMeta) (ai : GenOutcome) (newId : String) (now : Nat) (s : AppState) :
    calculateSHA3_256 (fun i => i != k) hasCb bytes =
      Except.error "Error reading file." ∧
    (processFile file (Except.error "Error reading file.") ai newId now s).progress = 0 ∧
    (processFile file (Except.error "Error reading file.") ai newId now s).results =
      s.results ∧
    (processFile file (Except.error "Error reading file.") ai newId now s).status =
      HashStatus.ERROR ∧
    (processFile file (Except.error "Error reading file.") ai newId now s).errorMsg =
      some "Error reading file." := by
  refine ⟨calculateSHA3_256_read_error hasCb bytes k hk, rfl, rfl, rfl, ?_⟩
  simp [processFile]

/-- Witness for C8: the single read of an empty file fails. -/
theorem C8_read_error_propagation_witness :
    ((0 : Nat) = 0 ∨ (0 : Nat) * 1048576 < ([] : List Nat).length) ∧
    (calculateSHA3_256 (fun i => i != 0) true [] =
      Except.error "Error reading file." ∧
    (processFile ⟨"f.bin", 0, "", 0⟩ (Except.error "Error reading file.")
        GenOutcome.err "id0" 7 ⟨[], HashStatus.IDLE, 0, none⟩).progress = 0 ∧
    (processFile ⟨"f.bin", 0, "", 0⟩ (Except.error "Error reading file.")
        GenOutcome.err "id0" 7 ⟨[], HashStatus.IDLE, 0, none⟩).results =
      (⟨[], HashStatus.IDLE, 0, none⟩ : AppState).results ∧
    (processFile ⟨"f.bin", 0, "", 0⟩ (Except.error "Error reading file.")
        GenOutcome.err "id0" 7 ⟨[], HashStatus.IDLE, 0, none⟩).status =
      HashStatus.ERROR ∧
    (processFile ⟨"f.bin", 0, "", 0⟩ (Except.error "Error reading file.")
        GenOutcome.err "id0" 7 ⟨[], HashStatus.IDLE, 0, none⟩).errorMsg =
      some "Error reading file.") :=
  ⟨Or.inl rfl,
   C8_read_error_propagation [] true 0 (Or.inl rfl) ⟨"f.bin", 0, "", 0⟩ GenOutcome.err
     "id0" 7 ⟨[], HashStatus.IDLE, 0, none⟩⟩

/-- Claim C9 as stated is false: a failed file-processing operation
creates no Result record at all — the catch branch of `processFile` only
records the error message and status, so the history stays empty (length
0, not 1). -/
theorem C9_failed_op_counterexample :
    (processFile ⟨"file.bin", 3, "application/octet-stream", 0⟩
        (Except.error "Error reading file.") GenOutcome.err "abc" 7
        ⟨[], HashStatus.IDLE, 0, none⟩).results.length = 0 := by
  rfl

/-- Claim C9 amended: exactly one Result record is created per completed
(successful) file-processing operation and is prepended to the history
(most recent first) with the prior records unchanged; a failed operation
creates no record and leaves the history unchanged; records stay in the
list until `clearAll` empties it. -/
theorem C9_history_records (file : FileMeta) (digest e : String) (ai : GenOutcome)
    (newId : String) (now : Nat) (s : AppState) :
    (processFile file (Except.ok digest) ai newId now s).results =
      { id := newId, name := file.name, size := file.size,
        type := if file.type = "" then "unknown" else file.type,
        lastModified := file.lastModified, hash := digest, timestamp := now,
        aiAnalysis := some (analyzeFileMetadata ai) } :: s.results ∧
    (processFile file (Except.error e) ai newId now s).results = s.results ∧
    (clearAll s).results = [] :=
  ⟨rfl, rfl, rfl⟩

/-- Claim C10: the digest `calculateSHA3_256` resolves with is the same
whether or not an `onProgress` callback is supplied; it depends only on
the byte content (and the read outcomes), not on the presence of the
progress observer. -/
theorem C10_digest_independent_of_callback (readOk : Nat → Bool) (bytes : List Nat)
    (cb1 cb2 : Bool) :
    (calculateSHA3_256 readOk cb1 bytes).map HashRun.digest =
      (calculateSHA3_256 readOk cb2 bytes).map HashRun.digest :=
  calculateSHA3_256_digest_irrelevant readOk bytes cb1 cb2

/-- Claim C7 as stated is false for n ≥ 1024^5: the unit index
floor(log(n)/log(1024)) is then 5, `sizes[5]` is out of range, and the
rendered string is "1 undefined" — its unit is not one of
\x7bBytes, KB, MB, GB, TB\x7d; the spec wording ("largest unit such that the
scaled value is ≥ 1") would instead give "1024 TB". -/
theorem C7_formatBytes_counterexample :
    formatBytes (1024 ^ 5) 2 = "1 undefined" ∧
    specFormatBytes (1024 ^ 5) 2 = "1024 TB" ∧
    (["Bytes", "KB", "MB", "GB", "TB"].all
      (fun u => !(formatBytes (1024 ^ 5) 2 == "1 " ++ u))) = true := by
  have hlog : Nat.log 1024 (1024 ^ 5) = 5 := Nat.log_pow (by norm_num) 5
  have h1 : formatBytes (1024 ^ 5) 2 = "1 undefined" := by
    rw [formatBytes_eval 2 5 (by norm_num) hlog]
    decide
  have h2 : specFormatBytes (1024 ^ 5) 2 = "1024 TB" := by
    rw [specFormatBytes_eval 2 4 (by norm_num) (by rw [hlog]; decide)]
    decide
  refine ⟨h1, h2, ?_⟩
  rw [h1]
  decide

/-- Claim C7 amended: `formatBytes 0 d = "0 Bytes"`; for every integer n
with 0 < n < 1024^5 and every decimals d, `formatBytes n d` selects the
unit with index floor(log(n)/log(1024)) from \x7bBytes, KB, MB, GB, TB\x7d,
scales n by 1024^index, rounds to d decimal places and renders
"<value> <unit>" (it agrees with the spec-worded formatter on that
range); it is a pure function; in particular `formatBytes 1024 2 = "1 KB"`
and `formatBytes 1500 2 = "1.46 KB"`. -/
theorem C7_formatBytes_contract (n : Nat) (d : Int) :
    (0 < n → n < 1024 ^ 5 → formatBytes n d = specFormatBytes n d) ∧
    formatBytes 0 d = "0 Bytes" ∧
    formatBytes 1024 2 = "1 KB" ∧
    formatBytes 1500 2 = "1.46 KB" := by
  refine ⟨fun h0 h5 => formatBytes_eq_spec d h0 h5, rfl, ?_, ?_⟩
  · rw [formatBytes_eval 2 1 (by norm_num)
      (Nat.log_eq_of_pow_le_of_lt_pow (by norm_num) (by norm_num))]
    decide
  · rw [formatBytes_eval 2 1 (by norm_num)
      (Nat.log_eq_of_pow_le_of_lt_pow (by norm_num) (by norm_num))]
    decide

/-- Witness for C7 amended at n = 1500, d = 2. -/
theorem C7_formatBytes_contract_witness :
    ((0 : Nat) < 1500 ∧ (1500 : Nat) < 1024 ^ 5) ∧
    (formatBytes 1500 2 = specFormatBytes 1500 2 ∧
     formatBytes 0 2 = "0 Bytes" ∧
     formatBytes 1024 2 = "1 KB" ∧
     formatBytes 1500 2 = "1.46 KB") := by
  have h := C7_formatBytes_contract 1500 2
  exact ⟨⟨by decide, by decide⟩, ⟨h.1 (by decide) (by decide), h.2.1, h.2.2.1, h.2.2.2⟩⟩

end FlameHash
